import Mathlib

/-!
Shallow embedding of the EmailValidator four-stage validation pipeline from
`email_validator.py`: format check, blacklist check, DNS check, SMTP probe.

The two network collaborators (the DNS resolver and the SMTP client) are
modelled as an explicit environment of pure functions; the Python exceptions
those collaborators can raise are modelled as outcome constructors, so every
`try/except` of the source becomes a total `match`.  Strings are modelled over
their character lists, with Python `str.strip` and `str.lower` modelled for
ASCII input (the only input the rest of the pipeline is written for).
-/

namespace EmailValidator

/-- ASCII alphanumeric, the `[a-zA-Z0-9]` character class of the format regex
(`str.isalpha`-style Unicode classes are not used by the source pattern). -/
def isAlnumAscii (c : Char) : Bool := c.isAlpha || c.isDigit

/-- Model of Python `str.strip()`: drop whitespace from both ends. -/
def pyStrip (s : String) : String :=
  ⟨((s.data.dropWhile Char.isWhitespace).reverse.dropWhile Char.isWhitespace).reverse⟩

/-- Model of Python `str.lower()` on ASCII text. -/
def pyLower (s : String) : String := ⟨s.data.map Char.toLower⟩

/-- Head of `validate_email`: the input is stripped and lower-cased before any
stage runs. -/
def normalizeEmail (s : String) : String := pyLower (pyStrip s)

/-- Python `str.split(sep)` for a one-character separator, over character
lists (structurally recursive, so it evaluates inside the kernel): the
pieces between occurrences of the separator, in order; the empty string
yields one empty piece. -/
def splitOnChar (sep : Char) : List Char → List (List Char)
  | [] => [[]]
  | c :: rest =>
    match splitOnChar sep rest with
    | [] => [[]]
    | g :: gs => if c = sep then [] :: g :: gs else (c :: g) :: gs

/-- The local-part character class of `email_regex` in the source constructor:
letters, digits, and the listed special characters (the two characters written
via `Char.ofNat` are the single quote, code 39, and the backquote, code 96;
codes 123 and 125 are the curly braces). -/
def isLocalChar (c : Char) : Bool :=
  isAlnumAscii c || c = '.' || c = '!' || c = '#' || c = '$' || c = '%' ||
  c = '&' || c = Char.ofNat 39 || c = '*' || c = '+' || c = '/' || c = '=' ||
  c = '?' || c = '^' || c = '_' || c = Char.ofNat 96 || c = Char.ofNat 123 ||
  c = '|' || c = Char.ofNat 125 || c = '~' || c = '-'

/-- One domain label of `email_regex`: the pattern piece
`[a-zA-Z0-9](?:[a-zA-Z0-9-]{0,61}[a-zA-Z0-9])?`.  A string matches that piece
exactly when it is nonempty, at most 63 characters long, starts and ends with
an alphanumeric character, and consists of alphanumerics and hyphens: the
one-character alternative is the bare leading class, and the longer
alternative is first/last alphanumeric with 0 to 61 middle characters drawn
from `[a-zA-Z0-9-]`, i.e. total length 2 to 63. -/
def matchesLabel (l : List Char) : Bool :=
  !l.isEmpty && decide (l.length ≤ 63) &&
  (match l.head? with | some c => isAlnumAscii c | none => false) &&
  (match l.getLast? with | some c => isAlnumAscii c | none => false) &&
  l.all (fun c => isAlnumAscii c || c = '-')

/-- The domain side of `email_regex`: one label followed by zero or more
dot-label groups, i.e. the dot-separated pieces of the domain each match the
label piece (labels contain no dots, so the split is exact). -/
def matchesDomainPattern (d : List Char) : Bool :=
  (splitOnChar '.' d).all (fun lab => matchesLabel lab)

/-- The body of `email_regex` between its anchors, matched against a whole
character list.  The local-part class excludes `@` and the domain classes
exclude `@`, so a matching list contains exactly one `@` and the match
necessarily splits there: a list matches the pattern body exactly when
splitting on `@` yields two pieces, the first a nonempty run of local-part
characters and the second matching the domain piece. -/
def matchesEmailRegexCore (l : List Char) : Bool :=
  match splitOnChar '@' l with
  | [localPart, domain] =>
      !localPart.isEmpty && localPart.all isLocalChar &&
      matchesDomainPattern domain
  | _ => false

/-- Model of the end anchor: in Python `re` (without MULTILINE) the dollar
anchor matches at the end of the string or just before a newline at the end
of the string.  No character class of the pattern admits a newline, so the
only extra strings the anchor tolerates are those with exactly one trailing
newline: the anchored pattern matches a string iff its body matches the
string with one trailing newline removed. -/
def dropTrailingNewline (l : List Char) : List Char :=
  match l.getLast? with
  | some c => if c = '\n' then l.dropLast else l
  | none => l

/-- Model of `email_regex.match(email)` with the pattern of the source
constructor: the pattern body against the input with a single trailing
newline (tolerated by the dollar anchor) removed. -/
def matchesEmailRegex (s : String) : Bool :=
  matchesEmailRegexCore (dropTrailingNewline s.data)

/-- Python `s.startswith(".")`. -/
def startsWithDot (s : List Char) : Bool :=
  match s with | c :: _ => c = '.' | [] => false

/-- Python `s.endswith(".")`. -/
def endsWithDot (s : List Char) : Bool :=
  match s.getLast? with | some c => c = '.' | none => false

/-- Python `".." in s`: some two consecutive characters are both dots. -/
def hasDoubleDot : List Char → Bool
  | c1 :: c2 :: rest => (c1 = '.' && c2 = '.') || hasDoubleDot (c2 :: rest)
  | _ => false

/-- Embedding of `EmailValidator.validate_format`.  The source first rejects
the empty string and strings longer than 254, then requires the regex to
match, then performs the explicit local-part and domain-part checks on the
two pieces of `email.rsplit("@", 1)`.  A matching string has exactly one `@`
(see `matchesEmailRegex`), so the rsplit pieces are the two pieces of the
split; the wildcard branch below is unreachable when the regex matched. -/
def validate_format (email : String) : Bool :=
  if email.length = 0 ∨ email.length > 254 then false
  else
    matchesEmailRegex email &&
    match splitOnChar '@' email.data with
    | [localPart, domain] =>
        decide (localPart.length ≤ 64) &&
        !startsWithDot localPart && !endsWithDot localPart &&
        !hasDoubleDot localPart &&
        decide (domain.length ≤ 253) &&
        !startsWithDot domain && !endsWithDot domain &&
        !hasDoubleDot domain
    | _ => false

/-- The static disposable-provider blacklist of the source constructor. -/
def disposable_domains : List String :=
  ["10minutemail.com", "guerrillamail.com", "mailinator.com",
   "temp-mail.org", "throwaway.email", "getnada.com",
   "maildrop.cc", "tempmail.email", "yopmail.com",
   "dispostable.com", "fakeinbox.com", "spambox.us"]

/-- The static invalid/test-domain blacklist of the source constructor. -/
def invalid_domains : List String :=
  ["example.com", "test.com", "domain.com", "yoursite.com",
   "yourdomain.com", "email.com", "localhost"]

/-- Python `email.split("@")[1]`: the piece between the first and the second
`@` of the full split.  The three call sites (`check_blacklist`,
`validate_dns`, `validate_smtp`) only run after the format stage, which
guarantees exactly one `@`; the no-`@` case (an IndexError in Python,
unreachable in the pipeline) is mapped to the empty string. -/
def domainAfterAt (s : String) : String :=
  match splitOnChar '@' s.data with
  | _ :: d :: _ => ⟨d⟩
  | _ => ""

/-- The dict returned by `check_blacklist`. -/
structure BlacklistResult where
  is_blacklisted : Bool
  is_disposable : Bool
  is_invalid_domain : Bool
  deriving DecidableEq, Repr

/-- Embedding of `EmailValidator.check_blacklist`. -/
def check_blacklist (email : String) : BlacklistResult :=
  let domain := pyLower (domainAfterAt email)
  let dispo := disposable_domains.contains domain
  let inval := invalid_domains.contains domain
  { is_blacklisted := dispo || inval, is_disposable := dispo,
    is_invalid_domain := inval }

/-- An MX answer record as seen by the two resolver call sites: `exchange`
models the `.exchange` attribute and `asString` models `str(record)` (the
form stored by `validate_dns` into `mx_records`). -/
structure MxRecord where
  exchange : String
  asString : String
  deriving DecidableEq, Repr

/-- Outcome of one `dns.resolver.resolve(domain, rtype)` call: an answer
list, the `NXDOMAIN` exception, the `NoAnswer` exception, or any other
exception carrying its message text. -/
inductive DnsOutcome where
  | ok (records : List MxRecord)
  | nxdomain
  | noAnswer
  | err (msg : String)
  deriving DecidableEq, Repr

/-- Outcome of the scripted SMTP probe of `validate_smtp` against a given
mail-exchanger host: the HELO reply was not 250, the MAIL FROM reply was not
250, the RCPT TO command got a reply, or one of the exceptions the source
catches (socket timeout, address-resolution error, connect error, server
disconnect, anything else) was raised somewhere in the session. -/
inductive SmtpProbeOutcome where
  | heloRejected (code : Nat) (resp : String)
  | mailRejected (code : Nat) (resp : String)
  | rcptReply (code : Nat) (resp : String)
  | timeout
  | gaiError (msg : String)
  | connectError (msg : String)
  | disconnected
  | otherError (msg : String)
  deriving DecidableEq, Repr

/-- The network environment: results of MX resolution, A resolution, and the
SMTP probe (given the target host and the candidate address).  Both
`validate_dns` and `validate_smtp` query the same resolver, so a single pair
of resolution functions models the unchanged external state of one
`validate_email` call. -/
structure NetEnv where
  mx : String → DnsOutcome
  aQuery : String → DnsOutcome
  probe : String → String → SmtpProbeOutcome

/-- The constructor arguments of `EmailValidator` (`enable_smtp`, `timeout`).
The timeout only bounds network operations, which the environment abstracts,
so it does not influence the modelled data flow. -/
structure ValidatorConfig where
  enable_smtp : Bool
  timeout : Nat
  deriving DecidableEq, Repr

/-- The dict returned by `validate_dns`. -/
structure DnsResult where
  has_mx : Bool
  has_a : Bool
  mx_records : List String
  error : Option String
  deriving DecidableEq, Repr

/-- Embedding of `EmailValidator.validate_dns`: try MX first; on `NXDOMAIN`
or `NoAnswer` fall back to A records; any other exception from either call is
caught by the outer handler and stored as the error text. -/
def validate_dns (env : NetEnv) (email : String) : DnsResult :=
  let domain := domainAfterAt email
  match env.mx domain with
  | .ok recs =>
      { has_mx := true, has_a := false,
        mx_records := recs.map (fun r => r.asString), error := none }
  | .err m =>
      { has_mx := false, has_a := false, mx_records := [], error := some m }
  | .nxdomain | .noAnswer =>
      match env.aQuery domain with
      | .ok _ =>
          { has_mx := false, has_a := true, mx_records := [], error := none }
      | .err m =>
          { has_mx := false, has_a := false, mx_records := [], error := some m }
      | .nxdomain | .noAnswer =>
          { has_mx := false, has_a := false, mx_records := [], error := none }

/-- The dict returned by `validate_smtp`. -/
structure SmtpResult where
  smtp_valid : Option Bool
  smtp_response : Option String
  error : Option String
  deriving DecidableEq, Repr

/-- Python `s.rstrip(".")`: drop every trailing dot. -/
def rstripDots (s : String) : String :=
  ⟨(s.data.reverse.dropWhile (fun c => c = '.')).reverse⟩

/-- The mail-exchanger host the SMTP stage probes, when one is available:
`str(dns.resolver.resolve(domain, "MX")[0].exchange).rstrip(".")`. -/
def smtpTargetHost (env : NetEnv) (email : String) : Option String :=
  match env.mx (domainAfterAt email) with
  | .ok (r :: _) => some (rstripDots r.exchange)
  | _ => none

/-- The body of the `with smtplib.SMTP(...)` block of `validate_smtp`
together with its exception handlers, as a function of the session outcome:
how one probe outcome against the chosen host is turned into the stage
result.  The source initializes the result dict with `smtp_valid: False`,
and every exception handler only sets the error text, leaving `smtp_valid`
at that initial `False`; the only path that stores `None` is the ambiguous
RCPT reply code. -/
def interpretProbe (out : SmtpProbeOutcome) : SmtpResult :=
  match out with
  | .heloRejected _ resp =>
      { smtp_valid := some false, smtp_response := none,
        error := some ("HELO failed: " ++ resp) }
  | .mailRejected _ resp =>
      { smtp_valid := some false, smtp_response := none,
        error := some ("MAIL FROM failed: " ++ resp) }
  | .rcptReply code resp =>
      if code = 250 then
        { smtp_valid := some true, smtp_response := some resp,
          error := none }
      else if code = 550 then
        { smtp_valid := some false, smtp_response := some resp,
          error := none }
      else
        { smtp_valid := none, smtp_response := some resp,
          error := some ("Uncertain response: " ++ toString code ++
            " " ++ resp) }
  | .timeout =>
      { smtp_valid := some false, smtp_response := none,
        error := some "SMTP connection timeout" }
  | .gaiError m =>
      { smtp_valid := some false, smtp_response := none,
        error := some ("DNS resolution error: " ++ m) }
  | .connectError m =>
      { smtp_valid := some false, smtp_response := none,
        error := some ("SMTP connection error: " ++ m) }
  | .disconnected =>
      { smtp_valid := some false, smtp_response := none,
        error := some "SMTP server disconnected" }
  | .otherError m =>
      { smtp_valid := some false, smtp_response := none,
        error := some ("SMTP validation error: " ++ m) }

/-- Embedding of `EmailValidator.validate_smtp`: when enabled, resolve MX
afresh, pick the first record, and run the scripted probe against that host.
The `NXDOMAIN` and `NoAnswer` handlers store the two fixed messages; any
other resolver exception reaches the catch-all handler; an empty MX answer
would make `mx_records[0]` raise an IndexError, likewise caught by the
catch-all handler with the message text of that exception. -/
def validate_smtp (env : NetEnv) (cfg : ValidatorConfig) (email : String) :
    SmtpResult :=
  if !cfg.enable_smtp then
    { smtp_valid := none, smtp_response := none,
      error := some "SMTP validation disabled" }
  else
    match env.mx (domainAfterAt email) with
    | .nxdomain =>
        { smtp_valid := some false, smtp_response := none,
          error := some "No MX records found" }
    | .noAnswer =>
        { smtp_valid := some false, smtp_response := none,
          error := some "No MX records in DNS response" }
    | .err m =>
        { smtp_valid := some false, smtp_response := none,
          error := some ("SMTP validation error: " ++ m) }
    | .ok [] =>
        { smtp_valid := some false, smtp_response := none,
          error := some "SMTP validation error: list index out of range" }
    | .ok (r :: _) =>
        interpretProbe (env.probe (rstripDots r.exchange) email)

/-- The `validation_details` dict: one optional entry per stage that stores
details, present exactly when that stage executed. -/
structure ValidationDetails where
  blacklist : Option BlacklistResult
  dns : Option DnsResult
  smtp : Option SmtpResult
  deriving DecidableEq, Repr

/-- The result dict of `validate_email`. -/
structure ValidationResult where
  email : String
  is_valid : Bool
  format_valid : Bool
  blacklist_check : Bool
  dns_valid : Bool
  smtp_valid : Option Bool
  error_message : Option String
  validation_details : ValidationDetails
  deriving DecidableEq, Repr

/-- Embedding of `EmailValidator.validate_email`, the four-stage pipeline.
Two translation notes, both directly from the source text:
the DNS-failure message uses `dns_result.get("error", "No valid DNS records
found")`, and the `error` key is always present in the dict built by
`validate_dns` (initialized to `None`), so the `.get` default never applies
and the stored optional error is used as is; and in the SMTP branch the
`elif smtp_result["error"]` arm does not return, so the verdict conjunction
at the end still runs (every error text the SMTP stage can store is a
nonempty string, so Python truthiness coincides with `Option.isSome`). -/
def validate_email (env : NetEnv) (cfg : ValidatorConfig) (rawEmail : String) :
    ValidationResult :=
  let email := normalizeEmail rawEmail
  let base : ValidationResult :=
    { email := email, is_valid := false, format_valid := false,
      blacklist_check := false, dns_valid := false, smtp_valid := none,
      error_message := none,
      validation_details := { blacklist := none, dns := none, smtp := none } }
  if validate_format email = false then
    { base with error_message := some "Invalid email format" }
  else
    let bl := check_blacklist email
    let r1 := { base with
      format_valid := true,
      blacklist_check := !bl.is_blacklisted,
      validation_details := { blacklist := some bl, dns := none, smtp := none } }
    if bl.is_blacklisted then
      let msg := if bl.is_disposable then "Disposable email address"
                 else if bl.is_invalid_domain then "Invalid/test domain"
                 else "Domain is blacklisted"
      { r1 with error_message := some msg }
    else
      let dnsr := validate_dns env email
      let r2 := { r1 with
        dns_valid := dnsr.has_mx || dnsr.has_a,
        validation_details :=
          { blacklist := some bl, dns := some dnsr, smtp := none } }
      if (dnsr.has_mx || dnsr.has_a) = false then
        { r2 with error_message := dnsr.error }
      else if cfg.enable_smtp then
        let sr := validate_smtp env cfg email
        let r3 := { r2 with
          smtp_valid := sr.smtp_valid,
          validation_details :=
            { blacklist := some bl, dns := some dnsr, smtp := some sr } }
        if sr.smtp_valid = some false then
          { r3 with error_message := some "Email address does not exist on server" }
        else
          let r4 := match sr.error with
            | some e =>
                { r3 with error_message := some ("SMTP check failed: " ++ e) }
            | none => r3
          { r4 with is_valid :=
              r4.format_valid && r4.blacklist_check && r4.dns_valid &&
              !decide (r4.smtp_valid = some false) }
      else
        { r2 with is_valid :=
            r2.format_valid && r2.blacklist_check && r2.dns_valid &&
            !decide (r2.smtp_valid = some false) }

/-- Embedding of `EmailValidator.validate_bulk`: validate each input in
order.  The inter-call `time.sleep(0.5)` has no effect on the returned data
and is not modelled. -/
def validate_bulk (env : NetEnv) (cfg : ValidatorConfig)
    (emails : List String) : List ValidationResult :=
  emails.map (validate_email env cfg)

/-- Modelled from the words of the spec, for the refinement claim about the
format stage: one label of the "alphanumeric labels separated by dots, each
label at most 63 characters, optionally hyphenated but not hyphen-leading or
hyphen-trailing" structure. -/
def specLabelOK (l : List Char) : Bool :=
  !l.isEmpty && decide (l.length ≤ 63) &&
  l.all (fun c => isAlnumAscii c || c = '-') &&
  (match l.head? with | some c => !decide (c = '-') | none => false) &&
  (match l.getLast? with | some c => !decide (c = '-') | none => false)

/-- Modelled from the words of the spec: the conservative format grammar of
claim C6 — overall length at most 254; exactly one `@` separating a local
part and a domain part; local part at most 64 characters, not dot-leading or
dot-trailing, no consecutive dots; domain part at most 253 characters, not
dot-leading or dot-trailing, no consecutive dots, structured as labels per
`specLabelOK`.  The spec states no character-set restriction on the local
part. -/
def specFormatGrammar (s : String) : Bool :=
  decide (s.length ≤ 254) &&
  match splitOnChar '@' s.data with
  | [localPart, domain] =>
      decide (localPart.length ≤ 64) &&
      !startsWithDot localPart && !endsWithDot localPart &&
      !hasDoubleDot localPart &&
      decide (domain.length ≤ 253) &&
      !startsWithDot domain && !endsWithDot domain &&
      !hasDoubleDot domain &&
      (splitOnChar '.' domain).all (fun lab => specLabelOK lab)
  | _ => false

/-- Part of the amendment for claim C6: the additional requirement the regex
of the source imposes beyond the grammar the spec states — the local part is
nonempty and drawn from the explicit local-part character class. -/
def localCharsetOK (s : String) : Bool :=
  match splitOnChar '@' s.data with
  | [localPart, _] => !localPart.isEmpty && localPart.all isLocalChar
  | _ => false

/-- Part of the amendment for claim C6: the explicit length checks of the
source apply to the pieces of the full input, including a trailing newline
the end anchor of the regex tolerated — this is the 253-character bound on
the full domain piece (trivially true when the input does not split into
exactly a local and a domain piece, since then the regex conjunct already
fails). -/
def fullDomainLenOK (s : String) : Bool :=
  match splitOnChar '@' s.data with
  | [_, domain] => decide (domain.length ≤ 253)
  | _ => true

/-- A concrete environment for evaluation: one MX record resolves, A lookups
answer `NXDOMAIN`, and every SMTP probe times out. -/
def timeoutProbeEnv : NetEnv :=
  { mx := fun _ => DnsOutcome.ok
      [{ exchange := "mx.gmail.com.", asString := "10 mx.gmail.com." }],
    aQuery := fun _ => DnsOutcome.nxdomain,
    probe := fun _ _ => SmtpProbeOutcome.timeout }

/-- A concrete environment for evaluation: both lookups answer `NXDOMAIN`. -/
def nxdomainEnv : NetEnv :=
  { mx := fun _ => DnsOutcome.nxdomain,
    aQuery := fun _ => DnsOutcome.nxdomain,
    probe := fun _ _ => SmtpProbeOutcome.timeout }

/-- A concrete environment for evaluation: no MX answer, but an A answer, so
the DNS stage can only pass through the A-record fallback. -/
def aOnlyEnv : NetEnv :=
  { mx := fun _ => DnsOutcome.noAnswer,
    aQuery := fun _ => DnsOutcome.ok [],
    probe := fun _ _ => SmtpProbeOutcome.timeout }

/-- A concrete environment for evaluation: one MX record resolves and the
probe accepts the RCPT command with reply code 250. -/
def acceptProbeEnv : NetEnv :=
  { mx := fun _ => DnsOutcome.ok
      [{ exchange := "mx.host.org.", asString := "5 mx.host.org." }],
    aQuery := fun _ => DnsOutcome.nxdomain,
    probe := fun _ _ => SmtpProbeOutcome.rcptReply 250 "OK" }

/-- The configuration with SMTP verification enabled. -/
def cfgSmtpOn : ValidatorConfig := { enable_smtp := true, timeout := 10 }

/-- The configuration with SMTP verification disabled. -/
def cfgSmtpOff : ValidatorConfig := { enable_smtp := false, timeout := 10 }

/-- C1: the claim states that every inconclusive SMTP outcome — including a
timeout, a connection error, a disconnect, or any network-level exception —
leaves `smtp_valid` unknown and does not by itself make `is_valid` false.
The code contradicts this (and its own inline comments about treating SMTP
errors as inconclusive): `validate_smtp` initializes `smtp_valid` to `False`
and its exception handlers leave it there, so `validate_email` takes the
"does not exist on server" early return.  This theorem evaluates the
pipeline at a failing input: an address that passes format, blacklist and
DNS, whose SMTP probe times out, ends with `smtp_valid = some false` and
`is_valid = false`. -/
theorem smtp_timeout_is_fatal_contra_spec :
    (validate_email timeoutProbeEnv cfgSmtpOn "user@gmail.com").format_valid
      = true ∧
    (validate_email timeoutProbeEnv cfgSmtpOn "user@gmail.com").blacklist_check
      = true ∧
    (validate_email timeoutProbeEnv cfgSmtpOn "user@gmail.com").dns_valid
      = true ∧
    (validate_email timeoutProbeEnv cfgSmtpOn "user@gmail.com").smtp_valid
      = some false ∧
    (validate_email timeoutProbeEnv cfgSmtpOn "user@gmail.com").is_valid
      = false ∧
    (validate_email timeoutProbeEnv cfgSmtpOn "user@gmail.com").error_message
      = some "Email address does not exist on server" := by
  decide

/-- C2: for every environment, configuration and input string, the final
`is_valid` equals the conjunction of `format_valid`, `blacklist_check`,
`dns_valid`, and `smtp_valid` not being the confirmed-rejected value. -/
theorem is_valid_eq_stage_conjunction (env : NetEnv) (cfg : ValidatorConfig)
    (rawEmail : String) :
    (validate_email env cfg rawEmail).is_valid =
      ((validate_email env cfg rawEmail).format_valid &&
       (validate_email env cfg rawEmail).blacklist_check &&
       (validate_email env cfg rawEmail).dns_valid &&
       !decide ((validate_email env cfg rawEmail).smtp_valid = some false)) := by
  simp only [validate_email]
  split_ifs <;>
    (try cases herr : (validate_smtp env cfg (normalizeEmail rawEmail)).error) <;>
    (try cases hmx2 : (validate_dns env (normalizeEmail rawEmail)).has_mx) <;>
    simp_all

/-- C3: the claim states that an input whose domain resolves neither MX nor A
records gets `dns_valid = false`, `is_valid = false`, no SMTP stage, and an
`error_message` that is never left `None`.  The code contradicts the last
part: `dns_result.get("error", "No valid DNS records found")` finds the
always-present `error` key (still `None` after clean `NXDOMAIN` answers), so
the default text is never used.  This theorem evaluates the pipeline at a
failing input: both lookups answer `NXDOMAIN`, the first three consequences
hold, but `error_message` is `none`. -/
theorem dns_failure_error_message_left_none :
    (validate_email nxdomainEnv cfgSmtpOn "user@nosuchdomain.xyz").dns_valid
      = false ∧
    (validate_email nxdomainEnv cfgSmtpOn "user@nosuchdomain.xyz").is_valid
      = false ∧
    (validate_email nxdomainEnv cfgSmtpOn
      "user@nosuchdomain.xyz").validation_details.smtp = none ∧
    (validate_email nxdomainEnv cfgSmtpOn "user@nosuchdomain.xyz").error_message
      = none := by
  decide

/-- C4 counterexample: the claim states that only inputs whose stage-3 DNS
result contained MX records reach stage 4, an A-record-only pass never.  In
the code the SMTP stage is gated only on `dns_valid` (MX or A) and
`enable_smtp`: with no MX answer but an A answer, stage 3 passes A-only and
stage 4 still executes (its details entry is present). -/
theorem a_only_pass_reaches_smtp_stage :
    (validate_dns aOnlyEnv "user@gmail.com").has_mx = false ∧
    (validate_email aOnlyEnv cfgSmtpOn "user@gmail.com").dns_valid = true ∧
    (validate_email aOnlyEnv cfgSmtpOn
      "user@gmail.com").validation_details.smtp.isSome = true := by
  decide

/-- C4 as amended: with SMTP enabled, stage 4 executes exactly when the first
three stages pass (whether DNS passed via MX or via A records); when the
fresh MX resolution of stage 4 has records, the probe targets the first one
(the same first record stage 3 stored, both stages querying one resolver),
its exchange with trailing dots stripped, and the stage result is the
interpretation of the probe against that host; and when no MX record is
available the stage fails gracefully, returning a result that records an
error instead of raising. -/
theorem smtp_stage_gating_and_target (env : NetEnv) (cfg : ValidatorConfig)
    (rawEmail : String) (hs : cfg.enable_smtp = true) :
    ((validate_email env cfg rawEmail).validation_details.smtp.isSome =
      ((validate_email env cfg rawEmail).format_valid &&
       (validate_email env cfg rawEmail).blacklist_check &&
       (validate_email env cfg rawEmail).dns_valid)) ∧
    (∀ rec rest,
      env.mx (domainAfterAt (normalizeEmail rawEmail)) =
          DnsOutcome.ok (rec :: rest) →
      smtpTargetHost env (normalizeEmail rawEmail) =
          some (rstripDots rec.exchange) ∧
      (validate_dns env (normalizeEmail rawEmail)).mx_records =
          (rec :: rest).map (fun x => x.asString) ∧
      validate_smtp env cfg (normalizeEmail rawEmail) =
          interpretProbe (env.probe (rstripDots rec.exchange)
            (normalizeEmail rawEmail))) ∧
    (smtpTargetHost env (normalizeEmail rawEmail) = none →
      (validate_smtp env cfg (normalizeEmail rawEmail)).error.isSome = true) := by
  refine ⟨?_, ?_, ?_⟩
  · simp only [validate_email]
    split_ifs <;>
      (try cases herr : (validate_smtp env cfg (normalizeEmail rawEmail)).error) <;>
      (try cases hmx2 : (validate_dns env (normalizeEmail rawEmail)).has_mx) <;>
      simp_all
  · intro rec rest hmx
    refine ⟨?_, ?_, ?_⟩
    · simp [smtpTargetHost, hmx]
    · simp [validate_dns, hmx]
    · simp [validate_smtp, hmx, hs]
  · intro hnone
    simp only [validate_smtp, hs, Bool.not_true]
    cases hmx : env.mx (domainAfterAt (normalizeEmail rawEmail)) with
    | ok recs =>
      cases recs with
      | nil => simp
      | cons rec rest => simp [smtpTargetHost, hmx] at hnone
    | nxdomain => simp
    | noAnswer => simp
    | err m => simp

/-- Witness for the amended C4 theorem at a concrete environment, address
and configuration with SMTP enabled. -/
theorem smtp_stage_gating_and_target_witness :
    cfgSmtpOn.enable_smtp = true ∧
    (((validate_email acceptProbeEnv cfgSmtpOn
        "person@host.org").validation_details.smtp.isSome =
      ((validate_email acceptProbeEnv cfgSmtpOn "person@host.org").format_valid &&
       (validate_email acceptProbeEnv cfgSmtpOn "person@host.org").blacklist_check &&
       (validate_email acceptProbeEnv cfgSmtpOn "person@host.org").dns_valid)) ∧
    (∀ rec rest,
      acceptProbeEnv.mx (domainAfterAt (normalizeEmail "person@host.org")) =
          DnsOutcome.ok (rec :: rest) →
      smtpTargetHost acceptProbeEnv (normalizeEmail "person@host.org") =
          some (rstripDots rec.exchange) ∧
      (validate_dns acceptProbeEnv (normalizeEmail "person@host.org")).mx_records =
          (rec :: rest).map (fun x => x.asString) ∧
      validate_smtp acceptProbeEnv cfgSmtpOn (normalizeEmail "person@host.org") =
          interpretProbe (acceptProbeEnv.probe (rstripDots rec.exchange)
            (normalizeEmail "person@host.org"))) ∧
    (smtpTargetHost acceptProbeEnv (normalizeEmail "person@host.org") = none →
      (validate_smtp acceptProbeEnv cfgSmtpOn
        (normalizeEmail "person@host.org")).error.isSome = true)) :=
  ⟨rfl, smtp_stage_gating_and_target acceptProbeEnv cfgSmtpOn
    "person@host.org" rfl⟩

/-- C5: whenever the normalized input fails the format stage, the pipeline
reports `format_valid = false`, `is_valid = false`, the fixed format error
message, an empty details record (no later stage stored anything), and the
result does not depend on the network environment at all — no DNS or SMTP
interaction can influence it. -/
theorem format_failure_short_circuits (env : NetEnv) (cfg : ValidatorConfig)
    (rawEmail : String)
    (hfmt : validate_format (normalizeEmail rawEmail) = false) :
    (validate_email env cfg rawEmail).format_valid = false ∧
    (validate_email env cfg rawEmail).is_valid = false ∧
    (validate_email env cfg rawEmail).error_message =
      some "Invalid email format" ∧
    (validate_email env cfg rawEmail).validation_details =
      { blacklist := none, dns := none, smtp := none } ∧
    ∀ env2 : NetEnv, validate_email env2 cfg rawEmail =
      validate_email env cfg rawEmail := by
  refine ⟨?_, ?_, ?_, ?_, ?_⟩ <;> simp [validate_email, hfmt]

/-- Witness for the C5 theorem at the concrete malformed input of the spec
scenario. -/
theorem format_failure_short_circuits_witness :
    validate_format (normalizeEmail "not-an-email") = false ∧
    ((validate_email nxdomainEnv cfgSmtpOn "not-an-email").format_valid
        = false ∧
     (validate_email nxdomainEnv cfgSmtpOn "not-an-email").is_valid = false ∧
     (validate_email nxdomainEnv cfgSmtpOn "not-an-email").error_message =
        some "Invalid email format" ∧
     (validate_email nxdomainEnv cfgSmtpOn "not-an-email").validation_details =
        { blacklist := none, dns := none, smtp := none } ∧
     ∀ env2 : NetEnv, validate_email env2 cfgSmtpOn "not-an-email" =
        validate_email nxdomainEnv cfgSmtpOn "not-an-email") :=
  ⟨by decide, format_failure_short_circuits nxdomainEnv cfgSmtpOn
    "not-an-email" (by decide)⟩

/-- C7: for an input that passed the format stage (hence has exactly one `@`,
so the sole `@` is also the last), the blacklist stage checks the lower-cased
domain piece against the two static sets, `blacklist_check` is the negation
of a match, and on a match the pipeline stops before DNS with `is_valid`
false and an error message chosen by priority: disposable over invalid/test
over the generic blacklisted text. -/
theorem blacklist_stage_behaviour (env : NetEnv) (cfg : ValidatorConfig)
    (rawEmail : String) (localPart domain : List Char)
    (hsplit : splitOnChar '@' (normalizeEmail rawEmail).data =
      [localPart, domain])
    (hfmt : validate_format (normalizeEmail rawEmail) = true) :
    (check_blacklist (normalizeEmail rawEmail)).is_disposable =
      disposable_domains.contains (pyLower ⟨domain⟩) ∧
    (check_blacklist (normalizeEmail rawEmail)).is_invalid_domain =
      invalid_domains.contains (pyLower ⟨domain⟩) ∧
    (check_blacklist (normalizeEmail rawEmail)).is_blacklisted =
      ((check_blacklist (normalizeEmail rawEmail)).is_disposable ||
       (check_blacklist (normalizeEmail rawEmail)).is_invalid_domain) ∧
    (validate_email env cfg rawEmail).blacklist_check =
      !(check_blacklist (normalizeEmail rawEmail)).is_blacklisted ∧
    ((check_blacklist (normalizeEmail rawEmail)).is_blacklisted = true →
      (validate_email env cfg rawEmail).is_valid = false ∧
      (validate_email env cfg rawEmail).validation_details.dns = none ∧
      (validate_email env cfg rawEmail).validation_details.smtp = none ∧
      (validate_email env cfg rawEmail).error_message =
        some (if (check_blacklist (normalizeEmail rawEmail)).is_disposable then
                "Disposable email address"
              else if (check_blacklist (normalizeEmail rawEmail)).is_invalid_domain
                then "Invalid/test domain"
              else "Domain is blacklisted")) := by
  refine ⟨?_, ?_, ?_, ?_, ?_⟩
  · simp [check_blacklist, domainAfterAt, hsplit]
  · simp [check_blacklist, domainAfterAt, hsplit]
  · simp [check_blacklist]
  · simp only [validate_email, hfmt]
    split_ifs <;>
      (try cases herr : (validate_smtp env cfg (normalizeEmail rawEmail)).error) <;>
      (try cases hmx2 : (validate_dns env (normalizeEmail rawEmail)).has_mx) <;>
      simp_all
  · intro hbl
    simp only [validate_email, hfmt]
    split_ifs <;>
      (try cases herr : (validate_smtp env cfg (normalizeEmail rawEmail)).error) <;>
      (try cases hmx2 : (validate_dns env (normalizeEmail rawEmail)).has_mx) <;>
      simp_all

/-- Witness for the C7 theorem at the disposable-domain scenario of the
spec. -/
theorem blacklist_stage_behaviour_witness :
    splitOnChar '@' (normalizeEmail "user@mailinator.com").data =
      ["user".data, "mailinator.com".data] ∧
    validate_format (normalizeEmail "user@mailinator.com") = true ∧
    ((check_blacklist (normalizeEmail "user@mailinator.com")).is_disposable =
      disposable_domains.contains (pyLower ⟨"mailinator.com".data⟩) ∧
     (check_blacklist (normalizeEmail "user@mailinator.com")).is_invalid_domain =
      invalid_domains.contains (pyLower ⟨"mailinator.com".data⟩) ∧
     (check_blacklist (normalizeEmail "user@mailinator.com")).is_blacklisted =
      ((check_blacklist (normalizeEmail "user@mailinator.com")).is_disposable ||
       (check_blacklist (normalizeEmail "user@mailinator.com")).is_invalid_domain) ∧
     (validate_email nxdomainEnv cfgSmtpOff
        "user@mailinator.com").blacklist_check =
      !(check_blacklist (normalizeEmail "user@mailinator.com")).is_blacklisted ∧
     ((check_blacklist (normalizeEmail "user@mailinator.com")).is_blacklisted
        = true →
      (validate_email nxdomainEnv cfgSmtpOff "user@mailinator.com").is_valid
        = false ∧
      (validate_email nxdomainEnv cfgSmtpOff
        "user@mailinator.com").validation_details.dns = none ∧
      (validate_email nxdomainEnv cfgSmtpOff
        "user@mailinator.com").validation_details.smtp = none ∧
      (validate_email nxdomainEnv cfgSmtpOff "user@mailinator.com").error_message =
        some (if (check_blacklist
                (normalizeEmail "user@mailinator.com")).is_disposable then
                "Disposable email address"
              else if (check_blacklist
                (normalizeEmail "user@mailinator.com")).is_invalid_domain
                then "Invalid/test domain"
              else "Domain is blacklisted"))) :=
  ⟨by decide, by decide, blacklist_stage_behaviour nxdomainEnv cfgSmtpOff
    "user@mailinator.com" "user".data "mailinator.com".data
    (by decide) (by decide)⟩

/-- C8: with SMTP disabled at construction, for every environment and input
the SMTP stage is skipped entirely (no details entry), `smtp_valid` stays
`none`, and `is_valid` is exactly the conjunction of the three remaining
stage results. -/
theorem smtp_disabled_skips_stage (env : NetEnv) (t : Nat) (rawEmail : String) :
    (validate_email env { enable_smtp := false, timeout := t } rawEmail).smtp_valid
      = none ∧
    (validate_email env { enable_smtp := false, timeout := t }
      rawEmail).validation_details.smtp = none ∧
    (validate_email env { enable_smtp := false, timeout := t } rawEmail).is_valid =
      ((validate_email env { enable_smtp := false, timeout := t }
          rawEmail).format_valid &&
       (validate_email env { enable_smtp := false, timeout := t }
          rawEmail).blacklist_check &&
       (validate_email env { enable_smtp := false, timeout := t }
          rawEmail).dns_valid) := by
  simp only [validate_email]
  split_ifs <;> simp_all

/-- C9: the batch operation returns one result per input, in input order,
each equal to the single-address validation of the corresponding input (the
embedded pipeline is a total function: every stage failure is data in the
result record, so no input can abort the batch). -/
theorem bulk_preserves_order_and_length (env : NetEnv) (cfg : ValidatorConfig)
    (emails : List String) :
    (validate_bulk env cfg emails).length = emails.length ∧
    ∀ i : Nat, (validate_bulk env cfg emails)[i]? =
      (emails[i]?).map (validate_email env cfg) := by
  refine ⟨by simp [validate_bulk], fun i => ?_⟩
  simp [validate_bulk]

/-- C10: stages that never ran leave their fields at the initial values — the
details entries are present exactly for the stages that executed, each
strict-boolean stage flag can be true only if every earlier stage passed
(so an early exit leaves the later flags at `false`, not at an absent
marker), and `smtp_valid` is only ever moved off `none` by an executed SMTP
stage. -/
theorem early_exit_leaves_defaults (env : NetEnv) (cfg : ValidatorConfig)
    (rawEmail : String) :
    (validate_email env cfg rawEmail).validation_details.blacklist.isSome =
      (validate_email env cfg rawEmail).format_valid ∧
    (validate_email env cfg rawEmail).validation_details.dns.isSome =
      ((validate_email env cfg rawEmail).format_valid &&
       (validate_email env cfg rawEmail).blacklist_check) ∧
    (validate_email env cfg rawEmail).validation_details.smtp.isSome =
      ((validate_email env cfg rawEmail).format_valid &&
       (validate_email env cfg rawEmail).blacklist_check &&
       (validate_email env cfg rawEmail).dns_valid && cfg.enable_smtp) ∧
    (validate_email env cfg rawEmail).blacklist_check =
      ((validate_email env cfg rawEmail).format_valid &&
       (validate_email env cfg rawEmail).blacklist_check) ∧
    (validate_email env cfg rawEmail).dns_valid =
      ((validate_email env cfg rawEmail).format_valid &&
       (validate_email env cfg rawEmail).blacklist_check &&
       (validate_email env cfg rawEmail).dns_valid) ∧
    ((validate_email env cfg rawEmail).smtp_valid.isSome &&
      !((validate_email env cfg rawEmail).format_valid &&
        (validate_email env cfg rawEmail).blacklist_check &&
        (validate_email env cfg rawEmail).dns_valid && cfg.enable_smtp)) =
      false := by
  simp only [validate_email]
  split_ifs <;>
    (try cases herr : (validate_smtp env cfg (normalizeEmail rawEmail)).error) <;>
    (try cases hmx2 : (validate_dns env (normalizeEmail rawEmail)).has_mx) <;>
    simp_all

/-- C6 counterexample: the claim states the format stage accepts a string if
and only if it satisfies the conservative grammar of the spec.  Both
directions fail on the code.  The grammar as stated places no character-set
restriction on the local part, but the regex of the source does: at the
concrete input with a comma in the local part, the grammar accepts and the
code rejects.  Conversely, the dollar anchor of the source pattern tolerates
one trailing newline: at the concrete input ending in a newline, the code
accepts (the regex matches the newline-stripped body and the explicit checks
on the full pieces all pass) while the grammar rejects the newline inside
the domain part. -/
theorem spec_grammar_accepts_comma_local_code_rejects :
    (specFormatGrammar "a,b@x.com" = true ∧
     validate_format "a,b@x.com" = false) ∧
    (validate_format "a@b.com\n" = true ∧
     specFormatGrammar "a@b.com\n" = false) := by
  decide

/-- Helper: `splitOnChar` never returns an empty list of pieces. -/
theorem splitOnChar_ne_nil (sep : Char) (l : List Char) :
    splitOnChar sep l ≠ [] := by
  cases l with
  | nil => simp [splitOnChar]
  | cons c rest =>
    simp only [splitOnChar]
    cases h : splitOnChar sep rest with
    | nil => simp
    | cons g gs => by_cases hc : c = sep <;> simp [hc]

/-- Helper: appending one non-separator character appends it to the last
piece of the split. -/
theorem splitOnChar_snoc (sep x : Char) (hx : ¬ x = sep) (l : List Char) :
    ∃ g gs, splitOnChar sep l = gs ++ [g] ∧
      splitOnChar sep (l ++ [x]) = gs ++ [g ++ [x]] := by
  induction l with
  | nil =>
    refine ⟨[], [], by simp [splitOnChar], ?_⟩
    simp [splitOnChar, hx]
  | cons c rest ih =>
    obtain ⟨g, gs, h1, h2⟩ := ih
    rcases gs with _ | ⟨g1, gs'⟩
    · by_cases hc : c = sep
      · exact ⟨g, [[]], by simp [splitOnChar, h1, hc], by simp [splitOnChar, h2, hc]⟩
      · exact ⟨c :: g, [], by simp [splitOnChar, h1, hc], by simp [splitOnChar, h2, hc]⟩
    · by_cases hc : c = sep
      · exact ⟨g, [] :: g1 :: gs', by simp [splitOnChar, h1, hc],
          by simp [splitOnChar, h2, hc]⟩
      · exact ⟨g, (c :: g1) :: gs', by simp [splitOnChar, h1, hc],
          by simp [splitOnChar, h2, hc]⟩

/-- Helper: a character list either is left unchanged by
`dropTrailingNewline` or decomposes as a core plus one trailing newline. -/
theorem dropTrailingNewline_spec (l : List Char) :
    dropTrailingNewline l = l ∨
      ∃ core, l = core ++ ['\n'] ∧ dropTrailingNewline l = core := by
  rcases hl : l.getLast? with _ | c
  · left; unfold dropTrailingNewline; rw [hl]
  · by_cases hc : c = '\n'
    · subst hc
      right
      refine ⟨l.dropLast, ?_, ?_⟩
      · exact (List.dropLast_append_getLast? _ hl).symm
      · unfold dropTrailingNewline; rw [hl]; simp
    · left; unfold dropTrailingNewline; rw [hl]; simp [hc]

/-- Helper: a label piece of the regex is nonempty and contains no dot
(its characters are alphanumerics and hyphens). -/
theorem matchesLabel_ne_nil_no_dot {g : List Char} (h : matchesLabel g = true) :
    g ≠ [] ∧ ∀ c ∈ g, ¬ c = '.' := by
  unfold matchesLabel at h
  simp only [Bool.and_eq_true] at h
  obtain ⟨⟨⟨⟨hne, _⟩, _⟩, _⟩, hall⟩ := h
  constructor
  · intro hg; subst hg; simp at hne
  · intro c hc hcd
    subst hcd
    have := List.all_eq_true.mp hall _ hc
    revert this; decide

/-- Helper: when the first piece of a split is nonempty, its head is the
head of the list and is not the separator. -/
theorem splitOnChar_head_cons {sep : Char} {d : List Char} {r : Char}
    {g0 : List Char} {gs : List (List Char)}
    (h : splitOnChar sep d = (r :: g0) :: gs) :
    ∃ rest, d = r :: rest ∧ ¬ r = sep := by
  cases d with
  | nil => simp [splitOnChar] at h
  | cons c rest =>
    simp only [splitOnChar] at h
    rcases hs : splitOnChar sep rest with _ | ⟨g1, gs1⟩
    · exact absurd hs (splitOnChar_ne_nil sep rest)
    · rw [hs] at h
      by_cases hc : c = sep
      · simp [hc] at h
      · simp only [if_neg hc, List.cons.injEq] at h
        exact ⟨rest, by rw [h.1.1], h.1.1 ▸ hc⟩

/-- Helper: the last character of a snoc decides the trailing-dot check. -/
theorem endsWithDot_snoc (l : List Char) (x : Char) :
    endsWithDot (l ++ [x]) = decide (x = '.') := by
  simp [endsWithDot, List.getLast?_concat]

/-- Helper: appending to a nonempty list leaves the leading-dot check
unchanged. -/
theorem startsWithDot_snoc_ne (l : List Char) (x : Char) (hl : l ≠ []) :
    startsWithDot (l ++ [x]) = startsWithDot l := by
  cases l with
  | nil => exact absurd rfl hl
  | cons c r => rfl

/-- Helper: appending a non-dot character cannot create consecutive dots. -/
theorem hasDoubleDot_snoc (l : List Char) (x : Char) (hx : ¬ x = '.') :
    hasDoubleDot (l ++ [x]) = hasDoubleDot l := by
  induction l with
  | nil => simp [hasDoubleDot]
  | cons a rest ih =>
    cases rest with
    | nil => simp [hasDoubleDot, hx]
    | cons b rest2 =>
      simp only [List.cons_append, hasDoubleDot]
      rw [show (b :: rest2.append [x] : List Char) = (b :: rest2) ++ [x] from rfl, ih]

/-- Helper: when the first piece of the dot-split is dot-free and all later
pieces are labels, the list has no trailing dot and no consecutive dots
(each dot separator is followed by a nonempty dot-free piece). -/
theorem splitOnChar_pieces_no_dots :
    ∀ (d g : List Char) (gs : List (List Char)),
      splitOnChar '.' d = g :: gs →
      (∀ c ∈ g, ¬ c = '.') →
      gs.all matchesLabel = true →
      endsWithDot d = false ∧ hasDoubleDot d = false := by
  intro d
  induction d with
  | nil =>
    intro g gs h _ _
    exact ⟨rfl, rfl⟩
  | cons c rest ih =>
    intro g gs h hg hgs
    rcases hsr : splitOnChar '.' rest with _ | ⟨g1, gs1⟩
    · exact absurd hsr (splitOnChar_ne_nil _ _)
    · simp only [splitOnChar, hsr] at h
      by_cases hc : c = '.'
      · rw [if_pos hc] at h
        obtain ⟨hg0, hgs0⟩ := List.cons.inj h
        subst hgs0
        simp only [List.all_cons, Bool.and_eq_true] at hgs
        obtain ⟨hml, hgs1all⟩ := hgs
        obtain ⟨hg1ne, hg1nd⟩ := matchesLabel_ne_nil_no_dot hml
        obtain ⟨hew, hdd⟩ := ih g1 gs1 hsr hg1nd hgs1all
        obtain ⟨r, g10, rfl⟩ : ∃ r g10, g1 = r :: g10 := by
          cases g1 with
          | nil => exact absurd rfl hg1ne
          | cons r g10 => exact ⟨r, g10, rfl⟩
        obtain ⟨rest2, hrest, hr⟩ := splitOnChar_head_cons hsr
        subst hc
        subst hrest
        refine ⟨hew, ?_⟩
        simp only [hasDoubleDot, hr]
        simpa [hr] using hdd
      · rw [if_neg hc] at h
        obtain ⟨hg0, hgs0⟩ := List.cons.inj h
        subst hgs0
        have hg1nd : ∀ a ∈ g1, ¬ a = '.' := by
          intro a ha
          exact hg a (by rw [← hg0]; exact List.mem_cons_of_mem c ha)
        obtain ⟨hew, hdd⟩ := ih g1 gs1 hsr hg1nd hgs
        have hcnd : ¬ c = '.' := hc
        cases rest with
        | nil =>
          refine ⟨?_, rfl⟩
          simp [endsWithDot, hcnd]
        | cons r0 rest2 =>
          refine ⟨?_, ?_⟩
          · simpa [endsWithDot] using hew
          · simp only [hasDoubleDot, hcnd]
            simpa using hdd

/-- Helper: a domain that matches the label-dot structure of the regex is
nonempty and passes the three explicit dot checks of the source — they are
redundant for the domain side, which is why the code applies them to the
full domain piece while the regex saw the newline-stripped one. -/
theorem matchesDomainPattern_no_dots {d : List Char}
    (h : matchesDomainPattern d = true) :
    d ≠ [] ∧ startsWithDot d = false ∧ endsWithDot d = false ∧
      hasDoubleDot d = false := by
  unfold matchesDomainPattern at h
  rcases hs : splitOnChar '.' d with _ | ⟨g, gs⟩
  · exact absurd hs (splitOnChar_ne_nil _ _)
  · rw [hs] at h
    simp only [List.all_cons, Bool.and_eq_true] at h
    obtain ⟨hg, hgs⟩ := h
    obtain ⟨hgne, hgnd⟩ := matchesLabel_ne_nil_no_dot hg
    obtain ⟨r, g0, rfl⟩ : ∃ r g0, g = r :: g0 := by
      cases g with
      | nil => exact absurd rfl hgne
      | cons r g0 => exact ⟨r, g0, rfl⟩
    obtain ⟨rest, hd, hr⟩ := splitOnChar_head_cons hs
    obtain ⟨hew, hdd⟩ := splitOnChar_pieces_no_dots d (r :: g0) gs hs hgnd hgs
    subst hd
    exact ⟨by simp, by simp [startsWithDot, hr], hew, hdd⟩

/-- Pointwise bridge between the label structure stated by the spec
("alphanumeric labels, optionally hyphenated but not hyphen-leading or
hyphen-trailing") and the label piece of the regex (first and last character
alphanumeric): over the alphabet of alphanumerics and hyphens the two edge
conditions coincide. -/
theorem specLabelOK_eq_matchesLabel (l : List Char) :
    specLabelOK l = matchesLabel l := by
  cases l with
  | nil => rfl
  | cons c rest =>
    by_cases hall : ((c :: rest).all (fun x => isAlnumAscii x || x = '-')) = true
    · have key : ∀ x : Char, (isAlnumAscii x || decide (x = '-')) = true →
          (!decide (x = '-')) = isAlnumAscii x := by
        intro x hx
        by_cases hxe : x = '-'
        · subst hxe; revert hx; decide
        · simp [hxe] at hx ⊢
          exact hx
      have hc : (isAlnumAscii c || decide (c = '-')) = true := by
        simpa using (List.all_eq_true.mp hall) c (by simp)
      have hne : (c :: rest : List Char) ≠ [] := by simp
      have hd : (c :: rest).getLast? = some ((c :: rest).getLast hne) :=
        List.getLast?_eq_getLast_of_ne_nil hne
      have hdchar : (isAlnumAscii ((c :: rest).getLast hne) ||
          decide ((c :: rest).getLast hne = '-')) = true := by
        simpa using (List.all_eq_true.mp hall) _ (List.getLast_mem hne)
      simp [specLabelOK, matchesLabel, hd, hall, key c hc, key _ hdchar,
        Bool.and_comm, Bool.and_left_comm, Bool.and_assoc]
    · have hallf : ((c :: rest).all (fun x => isAlnumAscii x || x = '-')) = false :=
        Bool.eq_false_iff.mpr hall
      simp [specLabelOK, matchesLabel, hallf]

/-- C6 as amended: the format stage accepts a string if and only if the
string with a single trailing newline removed (the strings the dollar
anchor of the pattern tolerates) satisfies the conservative grammar of the
spec together with the local-part charset requirement, and additionally the
two explicit length bounds of the source hold on the full input: overall
length (including any removed newline) at most 254 and full domain piece at
most 253 characters.  (The grammar side reads the "exactly one `@`
separating a local part and a domain part" clause as the split yielding
precisely two pieces; the domain-side label clauses of grammar and regex
coincide by `specLabelOK_eq_matchesLabel`.) -/
theorem validate_format_eq_spec_grammar_with_charset (s : String) :
    validate_format s =
      (specFormatGrammar ⟨dropTrailingNewline s.data⟩ &&
       localCharsetOK ⟨dropTrailingNewline s.data⟩ &&
       decide (s.length ≤ 254) && fullDomainLenOK s) := by
  rcases dropTrailingNewline_spec s.data with hA | ⟨core, hBl, hBd⟩
  · -- the input has no trailing newline: the anchor strips nothing
    rw [hA]
    have heta : (⟨s.data⟩ : String) = s := rfl
    rw [heta]
    by_cases h0 : s.length = 0
    · have hs : s = "" := by
        obtain ⟨data⟩ := s
        have hdl : data.length = 0 := h0
        have : data = [] := List.length_eq_zero.mp hdl
        subst this; rfl
      subst hs; decide
    · by_cases h254 : s.length > 254
      · have hns : ¬ s.length ≤ 254 := by omega
        simp [validate_format, specFormatGrammar, h0, h254, hns]
      · have hle : s.length ≤ 254 := by omega
        have hguard : ¬ (s.length = 0 ∨ s.length > 254) := by omega
        unfold validate_format specFormatGrammar localCharsetOK fullDomainLenOK
          matchesEmailRegex matchesEmailRegexCore matchesDomainPattern
        rw [hA, if_neg hguard]
        rcases hsp : splitOnChar '@' s.data with _ | ⟨lp, _ | ⟨dm, _ | ⟨x, rest⟩⟩⟩
        · simp [hsp]
        · simp [hsp, hle]
        · simp only [hsp, hle, decide_eq_true_eq, specLabelOK_eq_matchesLabel]
          rw [Bool.eq_iff_iff]
          simp only [Bool.and_eq_true, Bool.not_eq_true', decide_eq_true_eq]
          tauto
        · simp [hsp, hle]
  · -- the input ends in exactly one tolerated trailing newline
    rw [hBd]
    have hlen : s.length = core.length + 1 := by
      show s.data.length = _
      rw [hBl]; simp
    unfold validate_format specFormatGrammar localCharsetOK fullDomainLenOK
      matchesEmailRegex matchesEmailRegexCore matchesDomainPattern
    rw [hBd]
    by_cases h254 : core.length + 1 ≤ 254
    · have hguard : ¬ (s.length = 0 ∨ s.length > 254) := by omega
      rw [if_neg hguard]
      rcases hsp : splitOnChar '@' core with _ | ⟨lp, _ | ⟨dm, _ | ⟨p3, ps⟩⟩⟩
      · exact absurd hsp (splitOnChar_ne_nil _ _)
      · simp [hsp, hBl, hlen, h254]
      · obtain ⟨g, gs, hg1, hg2⟩ := splitOnChar_snoc '@' '\n' (by decide) core
        rw [hsp] at hg1
        obtain ⟨rfl, rfl⟩ : gs = [lp] ∧ g = dm := by
          rcases gs with _ | ⟨a, _ | ⟨b, r⟩⟩ <;> simp_all
        rw [hBl, hg2]
        simp only [List.cons_append, List.nil_append, String.length]
        have hfull : s.data.length ≤ 254 := by rw [hBl]; simpa using h254
        simp only [specLabelOK_eq_matchesLabel]
        by_cases hlab : ((splitOnChar '.' g).all fun lab => matchesLabel lab) = true
        · obtain ⟨hgne, hsw, hew, hdd⟩ :=
            matchesDomainPattern_no_dots (show matchesDomainPattern g = true from hlab)
          have hs1 : startsWithDot (g ++ ['\n']) = false := by
            rw [startsWithDot_snoc_ne _ _ hgne]; exact hsw
          have hs2 : endsWithDot (g ++ ['\n']) = false := by
            rw [endsWithDot_snoc]; decide
          have hs3 : hasDoubleDot (g ++ ['\n']) = false := by
            rw [hasDoubleDot_snoc _ _ (by decide)]; exact hdd
          have hs4 : (g ++ ['\n']).length = g.length + 1 := by simp
          have hc1 : core.length ≤ 254 := by omega
          have himp : g.length + 1 ≤ 253 → g.length ≤ 253 := by omega
          rw [Bool.eq_iff_iff]
          simp only [hlab, hs1, hs2, hs3, hs4, hsw, hew, hdd, hc1, h254, hfull,
            Bool.and_eq_true, Bool.not_eq_true', decide_eq_true_eq,
            Bool.not_false, Bool.and_true, Bool.true_and, decide_True,
            and_true, true_and]
          tauto
        · have hlabf : ((splitOnChar '.' g).all fun lab => matchesLabel lab) = false :=
            Bool.eq_false_iff.mpr hlab
          simp [hlabf]
      · simp [hsp, hBl, hlen, h254]
    · have hgt : s.length > 254 := by omega
      rw [if_pos (Or.inr hgt)]
      have hns : ¬ s.length ≤ 254 := by omega
      simp [hns]

end EmailValidator
